import Mathlib

/-!
Verification of the Uniswap connector
(`src/gateway/src/chains/ethereum/uniswap/uniswap.ts`).

The TypeScript file is a thin wrapper around the `@uniswap/sdk` package:
token lookup, the error-string early returns, and the gas-price scaling in
`executeTrade` are in the file itself, while the constant-product trade
arithmetic, the slippage bounds and the router-call deadline live in the
SDK, which is not part of the repository sources.  Those missing parts are
modelled from the specification (sections 4.2 to 4.5) and are marked
`Modelled from the spec:` in their doc comments.  Amounts are non-negative
arbitrary-precision integers, embedded as `Nat`; slippage tolerances are
rational fractions, embedded as `ℚ`.
-/

namespace UniswapModel

/-- Error taxonomy of the quote path.  Modelled from the spec: section 7
lists `TokenNotFound`, `InsufficientLiquidity`, `NoRouteFound`,
`InvalidSlippage`; section 4.3 adds `InsufficientOutputReserve` for the
ExactOut direction.  In the source these surface as returned strings
(`priceSwapIn: tokenInAddress ... not found in tokenList.`); the inductive
captures the typed-result reading the spec gives them. -/
inductive QuoteError where
  | tokenNotFound (address : String)
  | insufficientLiquidity
  | insufficientOutputReserve
  | noRouteFound
  | invalidSlippage
deriving Repr, DecidableEq

/-- Token metadata, from the `new Token(chainId, address, decimals, symbol,
name)` construction in `Uniswap.init` (uniswap.ts lines 57-63). -/
structure Token where
  chainId : Nat
  address : String
  decimals : Nat
  symbol : String
  name : String
deriving Repr, DecidableEq

/-- An entry of the external token list the registry is populated from
(`this.ethereum.storedTokenList`, uniswap.ts line 56). -/
structure StoredToken where
  address : String
  decimals : Nat
  symbol : String
  name : String
deriving Repr, DecidableEq

/-- The registry `tokenList: Record<string, Token>` (uniswap.ts line 27).
A JavaScript object assignment `obj[k] = v` replaces any previous value, so
the record is embedded as an association list where the most recent
insertion is found first. -/
def TokenList : Type := List (String × Token)

/-- One iteration of the `init` loop (uniswap.ts lines 56-64):
`this.tokenList[token.address] = new Token(chainId, address, decimals,
symbol, name)`.  The assignment overwrites unconditionally. -/
def storeToken (chainId : Nat) (m : TokenList) (t : StoredToken) : TokenList :=
  (t.address,
    { chainId := chainId, address := t.address, decimals := t.decimals,
      symbol := t.symbol, name := t.name }) :: m

/-- `Uniswap.init` (uniswap.ts lines 54-66): populate the registry from the
stored token list, one overwriting assignment per entry. -/
def init (chainId : Nat) (stored : List StoredToken) : TokenList :=
  stored.foldl (storeToken chainId) []

/-- Registry lookup `this.tokenList[address]` (uniswap.ts lines 83, 86,
114, 117): the most recently assigned token under the address, if any. -/
def lookupToken (m : TokenList) (address : String) : Option Token :=
  (m.find? (fun p => p.1 == address)).map Prod.snd

/-- A pair's reserve snapshot, normalized against the requested trade
direction (spec section 4.2: the core normalizes the collaborator's
ordering against the requested token ordering). -/
structure Pair where
  reserveIn : Nat
  reserveOut : Nat
deriving Repr, DecidableEq

/-- A single-hop trade (spec section 3: for maxHops = 1 the pair path has
length exactly 1, so only the two amounts matter here). -/
structure Trade where
  inputAmount : Nat
  outputAmount : Nat
deriving Repr, DecidableEq

/-- `ExpectedTrade` (uniswap.ts lines 17-20): the trade plus the
slippage-bounded counter-amount returned to the caller. -/
structure ExpectedTrade where
  trade : Trade
  expectedAmount : Int
deriving Repr, DecidableEq

/-- Modelled from the spec: section 4.3 ExactIn arithmetic.
`amountInWithFee = inputAmount * 997`, `outputAmount =
floor(amountInWithFee * reserveOut / (reserveIn * 1000 +
amountInWithFee))`.  `Nat` division is the floor. -/
def getAmountOut (inputAmount reserveIn reserveOut : Nat) : Nat :=
  inputAmount * 997 * reserveOut / (reserveIn * 1000 + inputAmount * 997)

/-- Modelled from the spec: section 4.3 ExactOut arithmetic.
`inputAmount = floor(reserveIn * outputAmount * 1000 / ((reserveOut -
outputAmount) * 997)) + 1` (ceiling behavior via the `+ 1`). -/
def getAmountIn (outputAmount reserveIn reserveOut : Nat) : Nat :=
  reserveIn * outputAmount * 1000 / ((reserveOut - outputAmount) * 997) + 1

/-- Modelled from the spec: section 4.2 liquidity validation (both
reserves must be > 0, else `InsufficientLiquidity`) followed by the
section 4.3 ExactIn formula for one pair. -/
def Pair.getOutputAmount (p : Pair) (inputAmount : Nat) : Except QuoteError Nat :=
  if p.reserveIn = 0 ∨ p.reserveOut = 0 then .error .insufficientLiquidity
  else .ok (getAmountOut inputAmount p.reserveIn p.reserveOut)

/-- Modelled from the spec: section 4.2 liquidity validation, then the
section 4.3 ExactOut guard (`InsufficientOutputReserve` if outputAmount ≥
reserveOut) and formula for one pair. -/
def Pair.getInputAmount (p : Pair) (outputAmount : Nat) : Except QuoteError Nat :=
  if p.reserveIn = 0 ∨ p.reserveOut = 0 then .error .insufficientLiquidity
  else if p.reserveOut ≤ outputAmount then .error .insufficientOutputReserve
  else .ok (getAmountIn outputAmount p.reserveIn p.reserveOut)

/-- Modelled from the spec: `bestTradeExactIn` of section 4.3, specialized
to the way the source calls it (uniswap.ts lines 95-97): a single supplied
pair and maxHops = 1, so the only candidate is the direct trade.  A
validation failure of the single pair is surfaced as its error. -/
def bestTradeExactIn (pair : Pair) (inputAmount : Nat) :
    Except QuoteError (List Trade) :=
  match pair.getOutputAmount inputAmount with
  | .error e => .error e
  | .ok out => .ok [{ inputAmount := inputAmount, outputAmount := out }]

/-- Modelled from the spec: `bestTradeExactOut` of section 4.3, specialized
to a single supplied pair and maxHops = 1 (uniswap.ts lines 129-131). -/
def bestTradeExactOut (pair : Pair) (outputAmount : Nat) :
    Except QuoteError (List Trade) :=
  match pair.getInputAmount outputAmount with
  | .error e => .error e
  | .ok amtIn => .ok [{ inputAmount := amtIn, outputAmount := outputAmount }]

/-- Modelled from the spec: section 4.4, `minimumAmountOut(trade, s) =
floor(outputAmount * (1 - s))`, failing with `InvalidSlippage` when the
tolerance is negative or ≥ 1.  Called by `priceSwapIn` (uniswap.ts lines
103-105). -/
def minimumAmountOut (trade : Trade) (slippageTolerance : ℚ) :
    Except QuoteError Int :=
  if slippageTolerance < 0 ∨ 1 ≤ slippageTolerance then .error .invalidSlippage
  else .ok ⌊(trade.outputAmount : ℚ) * (1 - slippageTolerance)⌋

/-- Modelled from the spec: section 4.4, `maximumAmountIn(trade, s) =
ceil(inputAmount * (1 + s))`, failing with `InvalidSlippage` when the
tolerance is negative or ≥ 1.  Called by `priceSwapOut` (uniswap.ts lines
137-139). -/
def maximumAmountIn (trade : Trade) (slippageTolerance : ℚ) :
    Except QuoteError Int :=
  if slippageTolerance < 0 ∨ 1 ≤ slippageTolerance then .error .invalidSlippage
  else .ok ⌈(trade.inputAmount : ℚ) * (1 + slippageTolerance)⌉

/-- `Uniswap.priceSwapIn` (uniswap.ts lines 78-107): look up both token
addresses, returning a `tokenNotFound` result when either is absent; the
pair snapshot stands in for `Fetcher.fetchPairData` (an external
collaborator, spec section 4.2); resolve the ExactIn trade over the single
pair with maxHops = 1; an empty candidate list is the no-route result; the
returned `expectedAmount` is the slippage-bounded minimum output. -/
def priceSwapIn (tokenList : TokenList) (tokenInAddress tokenOutAddress : String)
    (tokenInAmount : Nat) (pair : Pair) (allowedSlippage : ℚ) :
    Except QuoteError ExpectedTrade :=
  match lookupToken tokenList tokenInAddress with
  | none => .error (.tokenNotFound tokenInAddress)
  | some _ =>
    match lookupToken tokenList tokenOutAddress with
    | none => .error (.tokenNotFound tokenOutAddress)
    | some _ =>
      match bestTradeExactIn pair tokenInAmount with
      | .error e => .error e
      | .ok [] => .error .noRouteFound
      | .ok (trade :: _) =>
        match minimumAmountOut trade allowedSlippage with
        | .error e => .error e
        | .ok bound => .ok { trade := trade, expectedAmount := bound }

/-- `Uniswap.priceSwapOut` (uniswap.ts lines 109-141): symmetric to
`priceSwapIn`, resolving the ExactOut trade and bounding the maximum
input. -/
def priceSwapOut (tokenList : TokenList) (tokenInAddress tokenOutAddress : String)
    (tokenOutAmount : Nat) (pair : Pair) (allowedSlippage : ℚ) :
    Except QuoteError ExpectedTrade :=
  match lookupToken tokenList tokenInAddress with
  | none => .error (.tokenNotFound tokenInAddress)
  | some _ =>
    match lookupToken tokenList tokenOutAddress with
    | none => .error (.tokenNotFound tokenOutAddress)
    | some _ =>
      match bestTradeExactOut pair tokenOutAmount with
      | .error e => .error e
      | .ok [] => .error .noRouteFound
      | .ok (trade :: _) =>
        match maximumAmountIn trade allowedSlippage with
        | .error e => .error e
        | .ok bound => .ok { trade := trade, expectedAmount := bound }

/-- Router call parameters.  Modelled from the spec: section 4.5 names
`{ methodSelector, arguments, attachedValue }` plus the computed deadline;
only the deadline and recipient are analyzed here, the selector and
argument encoding being opaque router ABI details. -/
structure SwapCallParameters where
  recipient : String
  deadline : Int
  allowedSlippage : ℚ
deriving Repr, DecidableEq

/-- Modelled from the spec: section 4.5 `buildSwapParameters` (the
`Router.swapCallParameters` call of uniswap.ts lines 150-154, whose ttl
handling is inside the SDK).  Computes `deadline = currentTime +
ttlSeconds`, unclamped; fails (`none`) when `ttlSeconds ≤ 0`. -/
def buildSwapParameters (recipient : String) (currentTime ttlSeconds : Int)
    (allowedSlippage : ℚ) : Option SwapCallParameters :=
  if ttlSeconds ≤ 0 then none
  else some { recipient := recipient, deadline := currentTime + ttlSeconds,
              allowedSlippage := allowedSlippage }

/-- The gas envelope attached to the router call. -/
structure TxEnvelope where
  gasPrice : ℚ
  gasLimit : Nat
  value : Nat
deriving Repr, DecidableEq

/-- The envelope assembly of `Uniswap.executeTrade` (uniswap.ts lines
156-162): `{ gasPrice: gasPrice * 1e9, gasLimit:
ConfigManager.config.UNISWAP_GAS_LIMIT, value: result.value }`.  The
`gasPrice` argument is a JavaScript number (possibly fractional gwei),
embedded as a rational; the limit and value are passed through
unchanged. -/
def executeTradeEnvelope (gasPrice : ℚ) (gasLimit : Nat) (value : Nat) :
    TxEnvelope :=
  { gasPrice := gasPrice * 1000000000, gasLimit := gasLimit, value := value }

/-- A concrete two-token registry used to instantiate the universally
quantified theorems below, built through `init` itself. -/
def sampleTokenList : TokenList :=
  init 1 [⟨"0xWETH", 18, "WETH", "Wrapped Ether"⟩,
          ⟨"0xDAI", 18, "DAI", "Dai Stablecoin"⟩]

/-! ## Arithmetic helper lemmas -/

/-- The ExactIn denominator is positive once `reserveIn` is. -/
lemma denomIn_pos (inputAmount reserveIn : Nat) (hIn : 0 < reserveIn) :
    0 < reserveIn * 1000 + inputAmount * 997 := by positivity

/-- The ExactIn output is strictly below the output reserve. -/
lemma getAmountOut_lt (inputAmount reserveIn reserveOut : Nat)
    (hIn : 0 < reserveIn) (hOut : 0 < reserveOut) :
    getAmountOut inputAmount reserveIn reserveOut < reserveOut := by
  unfold getAmountOut
  have hD : 0 < reserveIn * 1000 + inputAmount * 997 :=
    denomIn_pos inputAmount reserveIn hIn
  rw [Nat.div_lt_iff_lt_mul hD]
  have h1 : 0 < reserveOut * (reserveIn * 1000) := by positivity
  calc inputAmount * 997 * reserveOut
      = reserveOut * (inputAmount * 997) := by ring
    _ < reserveOut * (reserveIn * 1000) + reserveOut * (inputAmount * 997) := by omega
    _ = reserveOut * (reserveIn * 1000 + inputAmount * 997) := by ring

/-- The floor division defining the ExactIn output, multiplied back by its
denominator, does not exceed the numerator. -/
lemma getAmountOut_mul_denom_le (inputAmount reserveIn reserveOut : Nat) :
    getAmountOut inputAmount reserveIn reserveOut
        * (reserveIn * 1000 + inputAmount * 997)
      ≤ inputAmount * 997 * reserveOut := by
  unfold getAmountOut
  exact Nat.div_mul_le_self _ _

/-- Key roundtrip bound: the ExactOut numerator for the ExactIn output is
at most `inputAmount` times the ExactOut denominator. -/
lemma roundtrip_numerator_le (inputAmount reserveIn reserveOut : Nat)
    (hIn : 0 < reserveIn) (hOut : 0 < reserveOut) :
    reserveIn * getAmountOut inputAmount reserveIn reserveOut * 1000
      ≤ inputAmount
          * ((reserveOut - getAmountOut inputAmount reserveIn reserveOut) * 997) := by
  have hlt := getAmountOut_lt inputAmount reserveIn reserveOut hIn hOut
  have hmul := getAmountOut_mul_denom_le inputAmount reserveIn reserveOut
  set q := getAmountOut inputAmount reserveIn reserveOut with hq
  zify [hlt.le]
  zify at hmul
  nlinarith [hmul]

/-- Feeding the ExactIn output back into the ExactOut formula requires at
most `inputAmount + 1`. -/
lemma getAmountIn_roundtrip_le (inputAmount reserveIn reserveOut : Nat)
    (hIn : 0 < reserveIn) (hOut : 0 < reserveOut) :
    getAmountIn (getAmountOut inputAmount reserveIn reserveOut) reserveIn reserveOut
      ≤ inputAmount + 1 := by
  have hlt := getAmountOut_lt inputAmount reserveIn reserveOut hIn hOut
  have hkey := roundtrip_numerator_le inputAmount reserveIn reserveOut hIn hOut
  set q := getAmountOut inputAmount reserveIn reserveOut with hq
  unfold getAmountIn
  have hdpos : 0 < (reserveOut - q) * 997 := by
    have : 0 < reserveOut - q := by omega
    positivity
  have hdiv : reserveIn * q * 1000 / ((reserveOut - q) * 997) ≤ inputAmount := by
    calc reserveIn * q * 1000 / ((reserveOut - q) * 997)
        ≤ inputAmount * ((reserveOut - q) * 997) / ((reserveOut - q) * 997) :=
          Nat.div_le_div_right hkey
      _ = inputAmount := Nat.mul_div_cancel inputAmount hdpos
  omega

/-- The constant product does not decrease across an ExactIn trade. -/
lemma constant_product_le (inputAmount reserveIn reserveOut : Nat)
    (hIn : 0 < reserveIn) (hOut : 0 < reserveOut) :
    reserveIn * reserveOut
      ≤ (reserveIn + inputAmount)
          * (reserveOut - getAmountOut inputAmount reserveIn reserveOut) := by
  have hlt := getAmountOut_lt inputAmount reserveIn reserveOut hIn hOut
  have hmul := getAmountOut_mul_denom_le inputAmount reserveIn reserveOut
  set q := getAmountOut inputAmount reserveIn reserveOut with hq
  zify [hlt.le]
  zify at hmul
  have hY : (0 : Int) ≤ inputAmount * reserveOut - inputAmount * q := by
    have : (q : Int) ≤ reserveOut := by exact_mod_cast hlt.le
    nlinarith
  nlinarith [hmul, hY]

/-! ## Pipeline evaluation lemmas -/

/-- `priceSwapIn` on registered tokens, positive reserves and a valid
tolerance succeeds with the direct ExactIn trade and its floor-bounded
minimum output. -/
lemma priceSwapIn_ok (tl : TokenList) (ia oa : String) (tIn tOut : Token)
    (a : Nat) (p : Pair) (s : ℚ)
    (h1 : lookupToken tl ia = some tIn) (h2 : lookupToken tl oa = some tOut)
    (hIn : 0 < p.reserveIn) (hOut : 0 < p.reserveOut)
    (h0 : 0 ≤ s) (hs1 : s < 1) :
    priceSwapIn tl ia oa a p s
      = .ok { trade := { inputAmount := a,
                         outputAmount := getAmountOut a p.reserveIn p.reserveOut },
              expectedAmount :=
                ⌊(getAmountOut a p.reserveIn p.reserveOut : ℚ) * (1 - s)⌋ } := by
  have hg1 : ¬(p.reserveIn = 0 ∨ p.reserveOut = 0) := by omega
  have hg2 : ¬(s < 0 ∨ 1 ≤ s) := by push_neg; exact ⟨h0, hs1⟩
  simp [priceSwapIn, h1, h2, bestTradeExactIn, Pair.getOutputAmount, hg1,
    minimumAmountOut, hg2]

/-- `priceSwapOut` on registered tokens, positive reserves, an output
amount below the output reserve and a valid tolerance succeeds with the
direct ExactOut trade and its ceiling-bounded maximum input. -/
lemma priceSwapOut_ok (tl : TokenList) (ia oa : String) (tIn tOut : Token)
    (a : Nat) (p : Pair) (s : ℚ)
    (h1 : lookupToken tl ia = some tIn) (h2 : lookupToken tl oa = some tOut)
    (hIn : 0 < p.reserveIn) (hOut : 0 < p.reserveOut) (hlt : a < p.reserveOut)
    (h0 : 0 ≤ s) (hs1 : s < 1) :
    priceSwapOut tl ia oa a p s
      = .ok { trade := { inputAmount := getAmountIn a p.reserveIn p.reserveOut,
                         outputAmount := a },
              expectedAmount :=
                ⌈(getAmountIn a p.reserveIn p.reserveOut : ℚ) * (1 + s)⌉ } := by
  have hg1 : ¬(p.reserveIn = 0 ∨ p.reserveOut = 0) := by omega
  have hg1' : ¬(p.reserveOut ≤ a) := by omega
  have hg2 : ¬(s < 0 ∨ 1 ≤ s) := by push_neg; exact ⟨h0, hs1⟩
  simp [priceSwapOut, h1, h2, bestTradeExactOut, Pair.getInputAmount, hg1,
    hg1', maximumAmountIn, hg2]

/-- `priceSwapOut` fails with `insufficientOutputReserve` when the
requested output is at least the whole output reserve. -/
lemma priceSwapOut_insufficientOutput (tl : TokenList) (ia oa : String)
    (tIn tOut : Token) (a : Nat) (p : Pair) (s : ℚ)
    (h1 : lookupToken tl ia = some tIn) (h2 : lookupToken tl oa = some tOut)
    (hIn : 0 < p.reserveIn) (hOut : 0 < p.reserveOut) (hge : p.reserveOut ≤ a) :
    priceSwapOut tl ia oa a p s = .error .insufficientOutputReserve := by
  have hg1 : ¬(p.reserveIn = 0 ∨ p.reserveOut = 0) := by omega
  simp [priceSwapOut, h1, h2, bestTradeExactOut, Pair.getInputAmount, hg1, hge]

/-! ## Claims -/

/-- C1: for every pair with positive reserves and every positive input
amount, the ExactIn quote (`priceSwapIn` through `bestTradeExactIn` with a
single pair, maxHops = 1) returns a trade whose output amount is
`floor(inputAmount * 997 * reserveOut / (reserveIn * 1000 + inputAmount *
997))`; in particular, for reserves 1,000,000 / 2,000,000 and input 1,000
the output is exactly 1,992. -/
theorem C1_exactIn_quote_formula :
    (∀ (tl : TokenList) (ia oa : String) (tIn tOut : Token) (a : Nat)
        (p : Pair) (s : ℚ),
      lookupToken tl ia = some tIn → lookupToken tl oa = some tOut →
      0 < p.reserveIn → 0 < p.reserveOut → 0 < a → 0 ≤ s → s < 1 →
      (priceSwapIn tl ia oa a p s).map (fun et => et.trade.outputAmount)
        = .ok (a * 997 * p.reserveOut / (p.reserveIn * 1000 + a * 997))) ∧
    (priceSwapIn sampleTokenList "0xWETH" "0xDAI" 1000
        ⟨1000000, 2000000⟩ 0).map (fun et => et.trade.outputAmount)
      = .ok 1992 := by
  have main : ∀ (tl : TokenList) (ia oa : String) (tIn tOut : Token) (a : Nat)
      (p : Pair) (s : ℚ),
      lookupToken tl ia = some tIn → lookupToken tl oa = some tOut →
      0 < p.reserveIn → 0 < p.reserveOut → 0 < a → 0 ≤ s → s < 1 →
      (priceSwapIn tl ia oa a p s).map (fun et => et.trade.outputAmount)
        = .ok (a * 997 * p.reserveOut / (p.reserveIn * 1000 + a * 997)) := by
    intro tl ia oa tIn tOut a p s h1 h2 hIn hOut _ha h0 hs1
    rw [priceSwapIn_ok tl ia oa tIn tOut a p s h1 h2 hIn hOut h0 hs1]
    rfl
  refine ⟨main, ?_⟩
  have h := main sampleTokenList "0xWETH" "0xDAI" _ _ 1000 ⟨1000000, 2000000⟩ 0
    rfl rfl (by norm_num) (by norm_num) (by norm_num) le_rfl (by norm_num)
  rw [h]
  rfl

/-- C1 witness: the general formula applied at a second concrete input,
reserves 5,000 / 5,000 and input 1,000, where it evaluates to 831. -/
theorem C1_exactIn_quote_formula_witness :
    (priceSwapIn sampleTokenList "0xWETH" "0xDAI" 1000 ⟨5000, 5000⟩ 0).map
      (fun et => et.trade.outputAmount) = .ok 831 := by
  have h := C1_exactIn_quote_formula.1 sampleTokenList "0xWETH" "0xDAI" _ _
    1000 ⟨5000, 5000⟩ 0 rfl rfl (by norm_num) (by norm_num) (by norm_num)
    le_rfl (by norm_num)
  rw [h]
  rfl

/-- C2: for every pair with positive reserves and every positive output
amount below the output reserve, the ExactOut quote (`priceSwapOut`
through `bestTradeExactOut` with a single pair, maxHops = 1) returns a
trade whose input amount is `floor(reserveIn * outputAmount * 1000 /
((reserveOut - outputAmount) * 997)) + 1`, and it fails with
`insufficientOutputReserve` whenever the output amount is at least the
output reserve. -/
theorem C2_exactOut_quote_formula :
    ∀ (tl : TokenList) (ia oa : String) (tIn tOut : Token) (a : Nat)
      (p : Pair) (s : ℚ),
    lookupToken tl ia = some tIn → lookupToken tl oa = some tOut →
    0 < p.reserveIn → 0 < p.reserveOut → 0 < a → 0 ≤ s → s < 1 →
    (a < p.reserveOut →
      (priceSwapOut tl ia oa a p s).map (fun et => et.trade.inputAmount)
        = .ok (p.reserveIn * a * 1000 / ((p.reserveOut - a) * 997) + 1)) ∧
    (p.reserveOut ≤ a →
      priceSwapOut tl ia oa a p s = .error .insufficientOutputReserve) := by
  intro tl ia oa tIn tOut a p s h1 h2 hIn hOut _ha h0 hs1
  constructor
  · intro hlt
    rw [priceSwapOut_ok tl ia oa tIn tOut a p s h1 h2 hIn hOut hlt h0 hs1]
    rfl
  · intro hge
    exact priceSwapOut_insufficientOutput tl ia oa tIn tOut a p s h1 h2
      hIn hOut hge

/-- C2 witness: both branches at concrete inputs — requesting 1,992 out of
reserves 1,000,000 / 2,000,000 needs exactly 1,000 in, and requesting the
whole output reserve fails with `insufficientOutputReserve`. -/
theorem C2_exactOut_quote_formula_witness :
    (priceSwapOut sampleTokenList "0xWETH" "0xDAI" 1992
        ⟨1000000, 2000000⟩ 0).map (fun et => et.trade.inputAmount)
      = .ok 1000 ∧
    priceSwapOut sampleTokenList "0xWETH" "0xDAI" 2000000
        ⟨1000000, 2000000⟩ 0
      = .error .insufficientOutputReserve := by
  have h1 := C2_exactOut_quote_formula sampleTokenList "0xWETH" "0xDAI" _ _
    1992 ⟨1000000, 2000000⟩ 0 rfl rfl (by norm_num) (by norm_num)
    (by norm_num) le_rfl (by norm_num)
  have h2 := C2_exactOut_quote_formula sampleTokenList "0xWETH" "0xDAI" _ _
    2000000 ⟨1000000, 2000000⟩ 0 rfl rfl (by norm_num) (by norm_num)
    (by norm_num) le_rfl (by norm_num)
  constructor
  · rw [h1.1 (by norm_num)]
    rfl
  · exact h2.2 (by norm_num)

/-- C3 counterexample: with reserves 997 / 2 and input 1,000 the ExactIn
trade outputs 1 (and 1 < 2, so the output-range half of the claim holds
here), but feeding that output back into `bestTradeExactOut` requires
1,001 — strictly more than the original 1,000.  The forward division is
exact at this point, so the ExactOut `+ 1` overshoots the original
input, refuting "inputAmount ≤ the original". -/
theorem C3_roundtrip_counterexample :
    bestTradeExactIn ⟨997, 2⟩ 1000
      = .ok [{ inputAmount := 1000, outputAmount := 1 }] ∧
    bestTradeExactOut ⟨997, 2⟩ 1
      = .ok [{ inputAmount := 1001, outputAmount := 1 }] ∧
    ¬((1001 : Nat) ≤ 1000) := by
  refine ⟨rfl, rfl, by norm_num⟩

/-- C3 amended: for every pair with positive reserves and every positive
input amount, the ExactIn output satisfies `0 ≤ output < reserveOut`
(the lower bound holds by the `Nat` embedding of amounts), and feeding
that exact output back into `bestTradeExactOut` on the same reserves
requires an input of at most the original input plus one — the `+ 1`
ceiling of the ExactOut formula can exceed the original by exactly one
when the forward division is exact, as the counterexample shows. -/
theorem C3_roundtrip_amended (p : Pair) (a : Nat)
    (hIn : 0 < p.reserveIn) (hOut : 0 < p.reserveOut) (_ha : 0 < a) :
    bestTradeExactIn p a
      = .ok [{ inputAmount := a,
               outputAmount := getAmountOut a p.reserveIn p.reserveOut }] ∧
    getAmountOut a p.reserveIn p.reserveOut < p.reserveOut ∧
    bestTradeExactOut p (getAmountOut a p.reserveIn p.reserveOut)
      = .ok [{ inputAmount :=
                 getAmountIn (getAmountOut a p.reserveIn p.reserveOut)
                   p.reserveIn p.reserveOut,
               outputAmount := getAmountOut a p.reserveIn p.reserveOut }] ∧
    getAmountIn (getAmountOut a p.reserveIn p.reserveOut)
        p.reserveIn p.reserveOut
      ≤ a + 1 := by
  have hg1 : ¬(p.reserveIn = 0 ∨ p.reserveOut = 0) := by omega
  have hlt := getAmountOut_lt a p.reserveIn p.reserveOut hIn hOut
  refine ⟨?_, hlt, ?_, getAmountIn_roundtrip_le a p.reserveIn p.reserveOut hIn hOut⟩
  · simp [bestTradeExactIn, Pair.getOutputAmount, hg1]
  · have hg1' : ¬(p.reserveOut ≤ getAmountOut a p.reserveIn p.reserveOut) := by
      omega
    simp [bestTradeExactOut, Pair.getInputAmount, hg1, hg1']

/-- C3 witness: the amended bound at reserves 1,000,000 / 2,000,000 and
input 1,000 — the output is 1,992 < 2,000,000 and the recomputed input is
1,000 ≤ 1,000 + 1. -/
theorem C3_roundtrip_amended_witness :
    bestTradeExactIn ⟨1000000, 2000000⟩ 1000
      = .ok [{ inputAmount := 1000, outputAmount := 1992 }] ∧
    (1992 : Nat) < 2000000 ∧
    bestTradeExactOut ⟨1000000, 2000000⟩ 1992
      = .ok [{ inputAmount := 1000, outputAmount := 1992 }] ∧
    (1000 : Nat) ≤ 1000 + 1 := by
  have h := C3_roundtrip_amended ⟨1000000, 2000000⟩ 1000 (by norm_num)
    (by norm_num) (by norm_num)
  obtain ⟨h1, h2, h3, h4⟩ := h
  exact ⟨h1, by norm_num, h3, by norm_num⟩

/-- C4: for every ExactIn trade computed from positive reserves with a
positive input amount, the post-trade product `(reserveIn + inputAmount) *
(reserveOut - outputAmount)` is at least the pre-trade product
`reserveIn * reserveOut` — the constant product never decreases across a
trade thanks to the 0.3% fee. -/
theorem C4_constant_product (p : Pair) (a : Nat) (t : Trade)
    (hIn : 0 < p.reserveIn) (hOut : 0 < p.reserveOut) (_ha : 0 < a)
    (ht : bestTradeExactIn p a = .ok [t]) :
    p.reserveIn * p.reserveOut
      ≤ (p.reserveIn + a) * (p.reserveOut - t.outputAmount) := by
  have hg1 : ¬(p.reserveIn = 0 ∨ p.reserveOut = 0) := by omega
  have hform : bestTradeExactIn p a
      = .ok [{ inputAmount := a,
               outputAmount := getAmountOut a p.reserveIn p.reserveOut }] := by
    simp [bestTradeExactIn, Pair.getOutputAmount, hg1]
  rw [hform] at ht
  have htv : t = { inputAmount := a,
                   outputAmount := getAmountOut a p.reserveIn p.reserveOut } := by
    injection ht with h
    exact (List.cons_eq_cons.mp h).1.symm
  rw [htv]
  exact constant_product_le a p.reserveIn p.reserveOut hIn hOut

/-- C4 witness: at reserves 1,000,000 / 2,000,000 and input 1,000 the
post-trade product dominates the pre-trade product. -/
theorem C4_constant_product_witness :
    (1000000 : Nat) * 2000000
      ≤ (1000000 + 1000) * (2000000 - 1992) := by
  have h := C4_constant_product ⟨1000000, 2000000⟩ 1000
    { inputAmount := 1000, outputAmount := 1992 } (by norm_num) (by norm_num)
    (by norm_num) rfl
  exact h

/-- C5: for every trade and every tolerance `s` with `0 ≤ s ≤ s' < 1`,
`minimumAmountOut` equals `floor(outputAmount * (1 - s))`; at tolerance 0
it equals the trade's output amount exactly; it is monotonically
non-increasing as the tolerance grows; and symmetrically
`maximumAmountIn` equals `ceil(inputAmount * (1 + s))`. -/
theorem C5_slippage_bounds (t : Trade) (s s' : ℚ)
    (h0 : 0 ≤ s) (hss : s ≤ s') (h1 : s' < 1) :
    minimumAmountOut t 0 = .ok (t.outputAmount : Int) ∧
    minimumAmountOut t s = .ok ⌊(t.outputAmount : ℚ) * (1 - s)⌋ ∧
    minimumAmountOut t s' = .ok ⌊(t.outputAmount : ℚ) * (1 - s')⌋ ∧
    ⌊(t.outputAmount : ℚ) * (1 - s')⌋ ≤ ⌊(t.outputAmount : ℚ) * (1 - s)⌋ ∧
    maximumAmountIn t s = .ok ⌈(t.inputAmount : ℚ) * (1 + s)⌉ := by
  have hs1 : s < 1 := lt_of_le_of_lt hss h1
  have h0' : (0 : ℚ) ≤ s' := le_trans h0 hss
  have hg0 : ¬((0 : ℚ) < 0 ∨ (1 : ℚ) ≤ 0) := by norm_num
  have hgs : ¬(s < 0 ∨ 1 ≤ s) := by push_neg; exact ⟨h0, hs1⟩
  have hgs' : ¬(s' < 0 ∨ 1 ≤ s') := by push_neg; exact ⟨h0', h1⟩
  refine ⟨?_, ?_, ?_, ?_, ?_⟩
  · simp [minimumAmountOut, Int.floor_natCast]
  · simp [minimumAmountOut, hgs]
  · simp [minimumAmountOut, hgs']
  · apply Int.floor_le_floor
    have hnn : (0 : ℚ) ≤ (t.outputAmount : ℚ) := by positivity
    have : (1 : ℚ) - s' ≤ 1 - s := by linarith
    exact mul_le_mul_of_nonneg_left this hnn
  · simp [maximumAmountIn, hgs]

/-- C5 witness: for a trade with output 2,000 and input 1,000, the bound at
tolerance 0 is exactly 2,000, the bounds at tolerances 1/10 and 1/5 are
1,800 and 1,600 (non-increasing), and the maximum input at tolerance 1/10
is 1,100. -/
theorem C5_slippage_bounds_witness :
    minimumAmountOut ⟨1000, 2000⟩ 0 = .ok 2000 ∧
    minimumAmountOut ⟨1000, 2000⟩ (1/10) = .ok 1800 ∧
    minimumAmountOut ⟨1000, 2000⟩ (1/5) = .ok 1600 ∧
    ((1600 : Int) ≤ 1800) ∧
    maximumAmountIn ⟨1000, 2000⟩ (1/10) = .ok 1100 := by
  have h := C5_slippage_bounds ⟨1000, 2000⟩ (1/10) (1/5) (by norm_num)
    (by norm_num) (by norm_num)
  obtain ⟨ha, hb, hc, hd, he⟩ := h
  refine ⟨ha, ?_, ?_, by norm_num, ?_⟩
  · rw [hb]; norm_num
  · rw [hc]; norm_num
  · rw [he]; norm_num

/-- C6: for every input address absent from the token registry, both quote
operations return a `tokenNotFound` result value to the caller (never a
thrown fault — the functions are total and the error is an ordinary
return value), and this holds whichever of the two addresses (input or
output) is the absent one. -/
theorem C6_token_not_found :
    ∀ (tl : TokenList) (ia oa : String) (amt : Nat) (p : Pair) (s : ℚ),
    (lookupToken tl ia = none →
      priceSwapIn tl ia oa amt p s = .error (.tokenNotFound ia) ∧
      priceSwapOut tl ia oa amt p s = .error (.tokenNotFound ia)) ∧
    (∀ tIn : Token, lookupToken tl ia = some tIn → lookupToken tl oa = none →
      priceSwapIn tl ia oa amt p s = .error (.tokenNotFound oa) ∧
      priceSwapOut tl ia oa amt p s = .error (.tokenNotFound oa)) := by
  intro tl ia oa amt p s
  constructor
  · intro h
    exact ⟨by simp [priceSwapIn, h], by simp [priceSwapOut, h]⟩
  · intro tIn hin hout
    exact ⟨by simp [priceSwapIn, hin, hout], by simp [priceSwapOut, hin, hout]⟩

/-- C6 witness: the address `0xUNKNOWN` is absent from the sample registry
and both quote operations return `tokenNotFound` for it, in either
argument position. -/
theorem C6_token_not_found_witness :
    priceSwapIn sampleTokenList "0xUNKNOWN" "0xDAI" 1000 ⟨5, 5⟩ 0
      = .error (.tokenNotFound "0xUNKNOWN") ∧
    priceSwapOut sampleTokenList "0xUNKNOWN" "0xDAI" 1000 ⟨5, 5⟩ 0
      = .error (.tokenNotFound "0xUNKNOWN") ∧
    priceSwapIn sampleTokenList "0xWETH" "0xUNKNOWN" 1000 ⟨5, 5⟩ 0
      = .error (.tokenNotFound "0xUNKNOWN") ∧
    priceSwapOut sampleTokenList "0xWETH" "0xUNKNOWN" 1000 ⟨5, 5⟩ 0
      = .error (.tokenNotFound "0xUNKNOWN") := by
  have h1 := (C6_token_not_found sampleTokenList "0xUNKNOWN" "0xDAI"
    1000 ⟨5, 5⟩ 0).1 rfl
  have h2 := (C6_token_not_found sampleTokenList "0xWETH" "0xUNKNOWN"
    1000 ⟨5, 5⟩ 0).2 _ rfl rfl
  exact ⟨h1.1, h1.2, h2.1, h2.2⟩

/-- C7: building swap parameters with ttlSeconds = 1800 at clock time T
produces a transaction deadline equal to T + 1800, unclamped, and calling
the builder with any ttlSeconds ≤ 0 fails rather than producing
parameters. -/
theorem C7_deadline :
    ∀ (r : String) (T ttl : Int) (s : ℚ),
    buildSwapParameters r T 1800 s
      = some { recipient := r, deadline := T + 1800, allowedSlippage := s } ∧
    (ttl ≤ 0 → buildSwapParameters r T ttl s = none) := by
  intro r T ttl s
  constructor
  · simp [buildSwapParameters]
  · intro h
    simp [buildSwapParameters, h]

/-- C7 witness: at clock time 1,700,000,000 the deadline is
1,700,001,800, and a ttl of -5 (and of 0) produces no parameters. -/
theorem C7_deadline_witness :
    buildSwapParameters "0xRECIPIENT" 1700000000 1800 0
      = some { recipient := "0xRECIPIENT", deadline := 1700001800,
               allowedSlippage := 0 } ∧
    buildSwapParameters "0xRECIPIENT" 1700000000 (-5) 0 = none ∧
    buildSwapParameters "0xRECIPIENT" 1700000000 0 0 = none := by
  have h1 := C7_deadline "0xRECIPIENT" 1700000000 (-5) 0
  have h2 := (C7_deadline "0xRECIPIENT" 1700000000 0 0).2 le_rfl
  refine ⟨?_, h1.2 (by norm_num), h2⟩
  rw [h1.1]
  norm_num

/-- C8 counterexample: registering a second token under an address that
already holds different decimals does not fail — `init` is total, has no
`InconsistentTokenMetadata` outcome, and the later registration silently
replaces the earlier one, so two different `Token` values are stored under
the same address over the registry's lifetime. -/
theorem C8_inconsistent_metadata_counterexample :
    init 1 [⟨"0xA", 18, "TKA", "TokenA18"⟩, ⟨"0xA", 6, "TKA", "TokenA6"⟩]
      = [("0xA", ⟨1, "0xA", 6, "TKA", "TokenA6"⟩),
         ("0xA", ⟨1, "0xA", 18, "TKA", "TokenA18"⟩)] ∧
    lookupToken (init 1 [⟨"0xA", 18, "TKA", "TokenA18"⟩]) "0xA"
      = some ⟨1, "0xA", 18, "TKA", "TokenA18"⟩ ∧
    lookupToken
        (init 1 [⟨"0xA", 18, "TKA", "TokenA18"⟩, ⟨"0xA", 6, "TKA", "TokenA6"⟩])
        "0xA"
      = some ⟨1, "0xA", 6, "TKA", "TokenA6"⟩ ∧
    (⟨1, "0xA", 6, "TKA", "TokenA6"⟩ : Token)
      ≠ ⟨1, "0xA", 18, "TKA", "TokenA18"⟩ := by
  refine ⟨rfl, rfl, rfl, by decide⟩

/-- C8 amended: registering a token under an already-registered address
never fails — the new metadata silently overwrites the old (last write
wins), so after `init` each address resolves to exactly the most recently
registered Token for it; at any single moment the registry yields at most
one Token per address (lookup is a function), but across registrations
different Token values may successively occupy the same address and no
`InconsistentTokenMetadata` error exists in the code. -/
theorem C8_last_write_wins :
    ∀ (c : Nat) (l : List StoredToken) (st : StoredToken),
    lookupToken (init c (l ++ [st])) st.address
      = some { chainId := c, address := st.address, decimals := st.decimals,
               symbol := st.symbol, name := st.name } := by
  intro c l st
  have hfold : init c (l ++ [st]) = storeToken c (init c l) st := by
    simp [init, List.foldl_append]
  rw [hfold]
  simp [storeToken, lookupToken, List.find?]

/-- C9: on a pair with either reserve zero, both quote paths fail with
`insufficientLiquidity` as a returned result; and the divisions of the
quote formulas are only reached with positive divisors — the ExactIn
denominator is positive whenever `reserveIn` is, and the ExactOut
denominator is positive whenever the requested output is below the output
reserve — so no division by zero is reachable from the quote entry
points. -/
theorem C9_insufficient_liquidity :
    ∀ (tl : TokenList) (ia oa : String) (tIn tOut : Token) (amt : Nat)
      (p : Pair) (s : ℚ),
    lookupToken tl ia = some tIn → lookupToken tl oa = some tOut →
    (p.reserveIn = 0 ∨ p.reserveOut = 0) →
    priceSwapIn tl ia oa amt p s = .error .insufficientLiquidity ∧
    priceSwapOut tl ia oa amt p s = .error .insufficientLiquidity ∧
    (0 < p.reserveIn → 0 < p.reserveIn * 1000 + amt * 997) ∧
    (∀ outAmt : Nat, outAmt < p.reserveOut →
      0 < (p.reserveOut - outAmt) * 997) := by
  intro tl ia oa tIn tOut amt p s h1 h2 hz
  refine ⟨?_, ?_, ?_, ?_⟩
  · simp [priceSwapIn, h1, h2, bestTradeExactIn, Pair.getOutputAmount, hz]
  · simp [priceSwapOut, h1, h2, bestTradeExactOut, Pair.getInputAmount, hz]
  · intro h
    exact denomIn_pos amt p.reserveIn h
  · intro outAmt h
    have : 0 < p.reserveOut - outAmt := by omega
    positivity

/-- C9 witness: with the sample registry and a pair whose input reserve is
zero (and one whose output reserve is zero), both quote operations return
`insufficientLiquidity`. -/
theorem C9_insufficient_liquidity_witness :
    priceSwapIn sampleTokenList "0xWETH" "0xDAI" 1000 ⟨0, 5⟩ 0
      = .error .insufficientLiquidity ∧
    priceSwapOut sampleTokenList "0xWETH" "0xDAI" 1000 ⟨0, 5⟩ 0
      = .error .insufficientLiquidity ∧
    priceSwapIn sampleTokenList "0xWETH" "0xDAI" 1000 ⟨5, 0⟩ 0
      = .error .insufficientLiquidity ∧
    priceSwapOut sampleTokenList "0xWETH" "0xDAI" 1000 ⟨5, 0⟩ 0
      = .error .insufficientLiquidity := by
  have h1 := C9_insufficient_liquidity sampleTokenList "0xWETH" "0xDAI" _ _
    1000 ⟨0, 5⟩ 0 rfl rfl (Or.inl rfl)
  have h2 := C9_insufficient_liquidity sampleTokenList "0xWETH" "0xDAI" _ _
    1000 ⟨5, 0⟩ 0 rfl rfl (Or.inr rfl)
  exact ⟨h1.1, h1.2.1, h2.1, h2.2.1⟩

/-- C10: `executeTrade` interprets its gasPrice argument as denominated in
gwei — the envelope it submits carries `gasPrice * 10^9` wei, not the raw
argument, while the gas limit and attached value are taken unchanged from
configuration and the built call parameters. -/
theorem C10_gas_price_gwei :
    ∀ (gasPrice : ℚ) (gasLimit value : Nat),
    (executeTradeEnvelope gasPrice gasLimit value).gasPrice
        = gasPrice * 10 ^ 9 ∧
    (executeTradeEnvelope gasPrice gasLimit value).gasLimit = gasLimit ∧
    (executeTradeEnvelope gasPrice gasLimit value).value = value := by
  intro gasPrice gasLimit value
  refine ⟨?_, rfl, rfl⟩
  norm_num [executeTradeEnvelope]

end UniswapModel
